import Mathlib

/- Verification of the object-handle subsystem (src/coreclr/gc/objecthandle.cpp).

   The GC-phase callbacks and the phase drivers are embedded shallowly:

   * Managed object references are machine words (`Obj`, 0 = null).
   * The collector's promotion oracle `g_theGCHeap->IsPromoted` and the promotion
     callback `promote_func` are host-supplied (spec section 6).  They are
     instantiated by the canonical monotone oracle: the promotion state is the
     list of objects promoted so far, promoting an object conses it on, and
     `IsPromoted` is membership.  Promoting an object makes `IsPromoted` true
     for it thereafter and reverts nothing, which is exactly the oracle contract
     the spec assumes.
   * A handle table scan (`HndScanHandlesForGC` over buckets and per-CPU tables)
     is flattened to one list of the visited slots, in visit order, for a single
     worker.
   * The callbacks never allocate; `Ref_Initialize` is modelled with an explicit
     allocation oracle and an explicit list of the allocations that are live.  -/

/-- Managed object reference, as the machine word stored in a handle slot; 0 is null. -/
abbrev Obj := Nat

/-- The collector's promotion state: the objects promoted so far. -/
abbrev PromotedSet := List Obj

/-- The promotion oracle `g_theGCHeap->IsPromoted` (host-supplied, spec section 6). -/
def IsPromoted (S : PromotedSet) (o : Obj) : Bool := decide (o ∈ S)

/-- The promotion callback `promote_func` (host-supplied, spec section 6): records the
object as promoted.  Monotone: nothing already promoted is reverted. -/
def promoteObj (S : PromotedSet) (o : Obj) : PromotedSet := o :: S

/-- A Dependent handle as `PromoteDependentHandle` sees it: the primary object slot
(`*pObjRef`) and the secondary object stored in the extra-info word (`*pExtraInfo`). -/
structure DepHandle where
  primary : Obj
  secondary : Obj
deriving DecidableEq

/-- The per-heap dependent-handle scan context `DhContext`: the two flags the
promotion callback sets (objecthandle.cpp, `m_fUnpromotedPrimaries` and `m_fPromoted`). -/
structure DhContext where
  m_fUnpromotedPrimaries : Bool
  m_fPromoted : Bool
deriving DecidableEq

/-- `PromoteDependentHandle` (objecthandle.cpp lines 230-266).  If the primary slot is
non-null and the primary is promoted: when the secondary is not yet promoted, promote
it and set `m_fPromoted`; otherwise do nothing.  Else, if the primary slot is non-null
(and hence unpromoted), set `m_fUnpromotedPrimaries`.  A null primary changes nothing.
The handle's slots are never written by this callback (the promote callback runs on
the secondary object only, which in the oracle model updates the promotion state). -/
def PromoteDependentHandle (S : PromotedSet) (ctx : DhContext) (h : DepHandle) :
    PromotedSet × DhContext :=
  if h.primary != 0 && IsPromoted S h.primary then
    if !(IsPromoted S h.secondary) then
      (promoteObj S h.secondary, { ctx with m_fPromoted := true })
    else
      (S, ctx)
  else if h.primary != 0 then
    (S, { ctx with m_fUnpromotedPrimaries := true })
  else
    (S, ctx)

/-- One pass of the dependent-handle scan: the handle-table walk inside the do-loop of
`Ref_ScanDependentHandlesForPromotion` (objecthandle.cpp lines 1319-1349) applies
`PromoteDependentHandle` to every Dependent handle in visit order (single worker;
the buckets and per-CPU tables are flattened to one list). -/
def dependentScanPass : PromotedSet → DhContext → List DepHandle → PromotedSet × DhContext
  | S, ctx, [] => (S, ctx)
  | S, ctx, h :: rest =>
    dependentScanPass (PromoteDependentHandle S ctx h).1 (PromoteDependentHandle S ctx h).2 rest

/-- Number of listed handles whose secondary the oracle does not yet report promoted:
the termination measure of the dependent fixed-point loop. -/
def unpromotedSecondaries (S : PromotedSet) (hs : List DepHandle) : Nat :=
  hs.countP (fun h => !(IsPromoted S h.secondary))

theorem IsPromoted_iff (S : PromotedSet) (o : Obj) : IsPromoted S o = true ↔ o ∈ S := by
  simp [IsPromoted]

theorem PromoteDependentHandle_cases (S : PromotedSet) (ctx : DhContext) (h : DepHandle) :
    (PromoteDependentHandle S ctx h =
        (promoteObj S h.secondary, { ctx with m_fPromoted := true }) ∧
      (h.primary != 0) = true ∧ IsPromoted S h.primary = true ∧
      IsPromoted S h.secondary = false) ∨
    (PromoteDependentHandle S ctx h = (S, { ctx with m_fUnpromotedPrimaries := true }) ∧
      (h.primary != 0) = true ∧ IsPromoted S h.primary = false) ∨
    (PromoteDependentHandle S ctx h = (S, ctx) ∧
      ((h.primary != 0) = false ∨
        (IsPromoted S h.primary = true ∧ IsPromoted S h.secondary = true))) := by
  cases hp : h.primary != 0 with
  | false =>
    right; right
    exact ⟨by simp [PromoteDependentHandle, hp], Or.inl rfl⟩
  | true =>
    cases h1 : IsPromoted S h.primary with
    | false =>
      right; left
      exact ⟨by simp [PromoteDependentHandle, hp, h1], rfl, rfl⟩
    | true =>
      cases h2 : IsPromoted S h.secondary with
      | false =>
        left
        exact ⟨by simp [PromoteDependentHandle, hp, h1, h2], rfl, rfl, rfl⟩
      | true =>
        right; right
        exact ⟨by simp [PromoteDependentHandle, hp, h1, h2], Or.inr ⟨rfl, rfl⟩⟩

theorem PromoteDependentHandle_subset (S : PromotedSet) (ctx : DhContext) (h : DepHandle)
    (o : Obj) (ho : o ∈ S) : o ∈ (PromoteDependentHandle S ctx h).1 := by
  rcases PromoteDependentHandle_cases S ctx h with ⟨he, _⟩ | ⟨he, _⟩ | ⟨he, _⟩ <;>
    rw [he] <;> simp [promoteObj, ho]

theorem PromoteDependentHandle_flagU (S : PromotedSet) (ctx : DhContext) (h : DepHandle)
    (hc : ctx.m_fUnpromotedPrimaries = true) :
    (PromoteDependentHandle S ctx h).2.m_fUnpromotedPrimaries = true := by
  rcases PromoteDependentHandle_cases S ctx h with ⟨he, _⟩ | ⟨he, _⟩ | ⟨he, _⟩ <;>
    rw [he] <;> simp [hc]

theorem PromoteDependentHandle_flagP (S : PromotedSet) (ctx : DhContext) (h : DepHandle)
    (hc : ctx.m_fPromoted = true) :
    (PromoteDependentHandle S ctx h).2.m_fPromoted = true := by
  rcases PromoteDependentHandle_cases S ctx h with ⟨he, _⟩ | ⟨he, _⟩ | ⟨he, _⟩ <;>
    rw [he] <;> simp [hc]

theorem dependentScanPass_subset (hs : List DepHandle) :
    ∀ (S : PromotedSet) (ctx : DhContext) (o : Obj), o ∈ S →
      o ∈ (dependentScanPass S ctx hs).1 := by
  induction hs with
  | nil => intro S ctx o ho; simpa [dependentScanPass] using ho
  | cons h rest ih =>
    intro S ctx o ho
    simp only [dependentScanPass]
    exact ih _ _ o (PromoteDependentHandle_subset S ctx h o ho)

theorem dependentScanPass_flagU (hs : List DepHandle) :
    ∀ (S : PromotedSet) (ctx : DhContext), ctx.m_fUnpromotedPrimaries = true →
      (dependentScanPass S ctx hs).2.m_fUnpromotedPrimaries = true := by
  induction hs with
  | nil => intro S ctx hc; simpa [dependentScanPass] using hc
  | cons h rest ih =>
    intro S ctx hc
    simp only [dependentScanPass]
    exact ih _ _ (PromoteDependentHandle_flagU S ctx h hc)

theorem dependentScanPass_flagP (hs : List DepHandle) :
    ∀ (S : PromotedSet) (ctx : DhContext), ctx.m_fPromoted = true →
      (dependentScanPass S ctx hs).2.m_fPromoted = true := by
  induction hs with
  | nil => intro S ctx hc; simpa [dependentScanPass] using hc
  | cons h rest ih =>
    intro S ctx hc
    simp only [dependentScanPass]
    exact ih _ _ (PromoteDependentHandle_flagP S ctx h hc)

theorem dependentScanPass_new_promotion (hs : List DepHandle) :
    ∀ (S : PromotedSet) (ctx : DhContext), ctx.m_fPromoted = false →
      (dependentScanPass S ctx hs).2.m_fPromoted = true →
      ∃ h ∈ hs, IsPromoted S h.secondary = false ∧
        h.secondary ∈ (dependentScanPass S ctx hs).1 := by
  induction hs with
  | nil =>
    intro S ctx h0 h1
    simp only [dependentScanPass] at h1
    rw [h0] at h1
    cases h1
  | cons h rest ih =>
    intro S ctx h0 h1
    simp only [dependentScanPass] at h1 ⊢
    rcases PromoteDependentHandle_cases S ctx h with ⟨he, _, _, hps⟩ | ⟨he, _, _⟩ | ⟨he, _⟩
    · refine ⟨h, by simp, hps, ?_⟩
      rw [he]
      exact dependentScanPass_subset rest _ _ _ (by simp [promoteObj])
    · rw [he] at h1 ⊢
      obtain ⟨h', hmem, hsec, hfin⟩ := ih S _ (by simp [h0]) h1
      exact ⟨h', by simp [hmem], hsec, hfin⟩
    · rw [he] at h1 ⊢
      obtain ⟨h', hmem, hsec, hfin⟩ := ih S ctx h0 h1
      exact ⟨h', by simp [hmem], hsec, hfin⟩

theorem countP_le_of_imp {α : Type} (p q : α → Bool) (hpq : ∀ x, q x = true → p x = true) :
    ∀ l : List α, l.countP q ≤ l.countP p := by
  intro l
  induction l with
  | nil => simp
  | cons b t ih =>
    rw [List.countP_cons, List.countP_cons]
    cases hq : q b with
    | false =>
      cases hp2 : p b <;> simp <;> omega
    | true =>
      rw [hpq b hq]
      simp
      omega

theorem countP_lt_of_flip {α : Type} (p q : α → Bool) (hpq : ∀ x, q x = true → p x = true) :
    ∀ (l : List α) (a : α), a ∈ l → p a = true → q a = false →
      l.countP q < l.countP p := by
  intro l
  induction l with
  | nil => intro a ha; cases ha
  | cons b t ih =>
    intro a ha hpa hqa
    rw [List.countP_cons, List.countP_cons]
    rcases List.mem_cons.mp ha with rfl | hat
    · have h1 := countP_le_of_imp p q hpq t
      simp [hpa, hqa]
      omega
    · have h1 := ih a hat hpa hqa
      have h2 : (if q b = true then 1 else 0) ≤ (if p b = true then 1 else 0) := by
        cases hqb : q b with
        | false => simp
        | true => simp [hpq b hqb]
      omega

theorem dependentScanPass_measure_lt (hs : List DepHandle) (S : PromotedSet)
    (hP : (dependentScanPass S ⟨false, false⟩ hs).2.m_fPromoted = true) :
    unpromotedSecondaries (dependentScanPass S ⟨false, false⟩ hs).1 hs <
      unpromotedSecondaries S hs := by
  obtain ⟨h, hmem, hsec, hfin⟩ := dependentScanPass_new_promotion hs S ⟨false, false⟩ rfl hP
  unfold unpromotedSecondaries
  refine countP_lt_of_flip _ _ ?_ hs h hmem ?_ ?_
  · intro x hx
    cases hSx : IsPromoted S x.secondary with
    | false => simp
    | true =>
      exfalso
      have hx2 : x.secondary ∈ (dependentScanPass S ⟨false, false⟩ hs).1 :=
        dependentScanPass_subset hs S ⟨false, false⟩ x.secondary
          ((IsPromoted_iff S x.secondary).mp hSx)
      simp [IsPromoted, hx2] at hx
  · simp [hsec]
  · simp [IsPromoted, hfin]

/-- The do-while loop of `Ref_ScanDependentHandlesForPromotion` (objecthandle.cpp lines
1311-1354): each iteration resets both context flags, performs a full scan pass,
accumulates `fAnyPromotions`, and repeats while both `m_fUnpromotedPrimaries` and
`m_fPromoted` came out set.  Total: an iteration that loops again set `m_fPromoted`,
and such a pass strictly decreases `unpromotedSecondaries`. -/
def dependentScanLoop (S : PromotedSet) (hs : List DepHandle) (fAnyPromotions : Bool) :
    PromotedSet × Bool :=
  if hg : ((dependentScanPass S ⟨false, false⟩ hs).2.m_fUnpromotedPrimaries &&
      (dependentScanPass S ⟨false, false⟩ hs).2.m_fPromoted) = true then
    dependentScanLoop (dependentScanPass S ⟨false, false⟩ hs).1 hs
      (fAnyPromotions || (dependentScanPass S ⟨false, false⟩ hs).2.m_fPromoted)
  else
    ((dependentScanPass S ⟨false, false⟩ hs).1,
      fAnyPromotions || (dependentScanPass S ⟨false, false⟩ hs).2.m_fPromoted)
termination_by unpromotedSecondaries S hs
decreasing_by
  have hg2 := hg
  simp only [Bool.and_eq_true] at hg2
  exact dependentScanPass_measure_lt hs S hg2.2

/-- `Ref_ScanDependentHandlesForPromotion` (objecthandle.cpp lines 1292-1357) for one
worker: runs the fixed-point loop starting with `fAnyPromotions = false` and returns
the final promotion state together with the function's return value. -/
def Ref_ScanDependentHandlesForPromotion (S : PromotedSet) (hs : List DepHandle) :
    PromotedSet × Bool :=
  dependentScanLoop S hs false

theorem dependentScanLoop_subset :
    ∀ (n : Nat) (S : PromotedSet) (hs : List DepHandle) (fAny : Bool),
      unpromotedSecondaries S hs = n →
      ∀ o, o ∈ S → o ∈ (dependentScanLoop S hs fAny).1 := by
  intro n
  induction n using Nat.strong_induction_on with
  | _ n ih =>
    intro S hs fAny hn o ho
    rw [dependentScanLoop]
    by_cases hg : ((dependentScanPass S ⟨false, false⟩ hs).2.m_fUnpromotedPrimaries &&
        (dependentScanPass S ⟨false, false⟩ hs).2.m_fPromoted) = true
    · rw [dif_pos hg]
      have hg2 := hg
      simp only [Bool.and_eq_true] at hg2
      refine ih _ ?_ _ hs _ rfl o ?_
      · rw [← hn]
        exact dependentScanPass_measure_lt hs S hg2.2
      · exact dependentScanPass_subset hs S ⟨false, false⟩ o ho
    · rw [dif_neg hg]
      exact dependentScanPass_subset hs S ⟨false, false⟩ o ho

theorem dependentScanPass_unprom_false (hs : List DepHandle) :
    ∀ (S : PromotedSet) (ctx : DhContext),
      (dependentScanPass S ctx hs).2.m_fUnpromotedPrimaries = false →
      ∀ h ∈ hs, (h.primary != 0) = true →
        h.secondary ∈ (dependentScanPass S ctx hs).1 := by
  induction hs with
  | nil =>
    intro S ctx hU h hmem
    cases hmem
  | cons h rest ih =>
    intro S ctx hU h' hmem hp'
    simp only [dependentScanPass] at hU ⊢
    rcases PromoteDependentHandle_cases S ctx h with ⟨he, _, _, _⟩ | ⟨he, _, _⟩ | ⟨he, hrest⟩
    · rw [he] at hU ⊢
      rcases List.mem_cons.mp hmem with rfl | hmem'
      · exact dependentScanPass_subset rest _ _ _ (by simp [promoteObj])
      · exact ih _ _ hU h' hmem' hp'
    · exfalso
      rw [he] at hU
      have hU2 := dependentScanPass_flagU rest S { ctx with m_fUnpromotedPrimaries := true }
        (by simp)
      rw [hU2] at hU
      cases hU
    · rw [he] at hU ⊢
      rcases List.mem_cons.mp hmem with rfl | hmem'
      · rcases hrest with hnull | ⟨_, hss⟩
        · rw [hp'] at hnull
          cases hnull
        · exact dependentScanPass_subset rest S ctx _ ((IsPromoted_iff S h'.secondary).mp hss)
      · exact ih S ctx hU h' hmem' hp'

theorem dependentScanPass_promoted_false (hs : List DepHandle) :
    ∀ (S : PromotedSet) (ctx : DhContext),
      (dependentScanPass S ctx hs).2.m_fPromoted = false →
      (dependentScanPass S ctx hs).1 = S ∧
      ∀ h ∈ hs, (h.primary != 0) = true → IsPromoted S h.primary = true →
        IsPromoted S h.secondary = true := by
  induction hs with
  | nil =>
    intro S ctx _
    exact ⟨rfl, by intro h hmem; cases hmem⟩
  | cons h rest ih =>
    intro S ctx hP
    simp only [dependentScanPass] at hP ⊢
    rcases PromoteDependentHandle_cases S ctx h with ⟨he, _, _, _⟩ | ⟨he, _, hpp⟩ | ⟨he, hrest⟩
    · exfalso
      rw [he] at hP
      have hP2 := dependentScanPass_flagP rest (promoteObj S h.secondary)
        { ctx with m_fPromoted := true } (by simp)
      rw [hP2] at hP
      cases hP
    · rw [he] at hP ⊢
      obtain ⟨hS, htail⟩ := ih S _ hP
      refine ⟨hS, ?_⟩
      intro h' hmem hp' hpp'
      rcases List.mem_cons.mp hmem with rfl | hmem'
      · rw [hpp'] at hpp
        cases hpp
      · exact htail h' hmem' hp' hpp'
    · rw [he] at hP ⊢
      obtain ⟨hS, htail⟩ := ih S ctx hP
      refine ⟨hS, ?_⟩
      intro h' hmem hp' hpp'
      rcases List.mem_cons.mp hmem with rfl | hmem'
      · rcases hrest with hnull | ⟨_, hss⟩
        · rw [hp'] at hnull
          cases hnull
        · exact hss
      · exact htail h' hmem' hp' hpp'

theorem dependentScanLoop_post :
    ∀ (n : Nat) (S : PromotedSet) (hs : List DepHandle) (fAny : Bool),
      unpromotedSecondaries S hs = n →
      ∀ h ∈ hs, (h.primary != 0) = true →
        IsPromoted (dependentScanLoop S hs fAny).1 h.primary = true →
        IsPromoted (dependentScanLoop S hs fAny).1 h.secondary = true := by
  intro n
  induction n using Nat.strong_induction_on with
  | _ n ih =>
    intro S hs fAny hn h hmem hp
    rw [dependentScanLoop]
    by_cases hg : ((dependentScanPass S ⟨false, false⟩ hs).2.m_fUnpromotedPrimaries &&
        (dependentScanPass S ⟨false, false⟩ hs).2.m_fPromoted) = true
    · rw [dif_pos hg]
      have hg2 := hg
      simp only [Bool.and_eq_true] at hg2
      refine ih _ ?_ _ hs _ rfl h hmem hp
      rw [← hn]
      exact dependentScanPass_measure_lt hs S hg2.2
    · rw [dif_neg hg]
      intro hprim
      cases hU : (dependentScanPass S ⟨false, false⟩ hs).2.m_fUnpromotedPrimaries with
      | false =>
        have hin := dependentScanPass_unprom_false hs S ⟨false, false⟩ hU h hmem hp
        exact (IsPromoted_iff _ _).mpr hin
      | true =>
        cases hPc : (dependentScanPass S ⟨false, false⟩ hs).2.m_fPromoted with
        | false =>
          obtain ⟨hS, hall⟩ := dependentScanPass_promoted_false hs S ⟨false, false⟩ hPc
          rw [hS] at hprim ⊢
          exact hall h hmem hp hprim
        | true =>
          exact absurd (by rw [hU, hPc]; rfl) hg

theorem dependentScanLoop_ret :
    ∀ (n : Nat) (S : PromotedSet) (hs : List DepHandle) (fAny : Bool),
      unpromotedSecondaries S hs = n →
      ((dependentScanLoop S hs fAny).2 = true ↔
        (fAny = true ∨ ∃ o, o ∉ S ∧ o ∈ (dependentScanLoop S hs fAny).1)) := by
  intro n
  induction n using Nat.strong_induction_on with
  | _ n ih =>
    intro S hs fAny hn
    rw [dependentScanLoop]
    by_cases hg : ((dependentScanPass S ⟨false, false⟩ hs).2.m_fUnpromotedPrimaries &&
        (dependentScanPass S ⟨false, false⟩ hs).2.m_fPromoted) = true
    · rw [dif_pos hg]
      have hg2 := hg
      simp only [Bool.and_eq_true] at hg2
      obtain ⟨h0, hmem0, hsec0, hin0⟩ :=
        dependentScanPass_new_promotion hs S ⟨false, false⟩ rfl hg2.2
      have hlt : unpromotedSecondaries (dependentScanPass S ⟨false, false⟩ hs).1 hs < n := by
        rw [← hn]
        exact dependentScanPass_measure_lt hs S hg2.2
      have hiff := ih _ hlt (dependentScanPass S ⟨false, false⟩ hs).1 hs
        (fAny || (dependentScanPass S ⟨false, false⟩ hs).2.m_fPromoted) rfl
      constructor
      · intro _
        right
        refine ⟨h0.secondary, ?_, ?_⟩
        · intro hin
          rw [(IsPromoted_iff S h0.secondary).mpr hin] at hsec0
          cases hsec0
        · exact dependentScanLoop_subset _ _ hs _ rfl h0.secondary hin0
      · intro _
        refine hiff.mpr (Or.inl ?_)
        rw [hg2.2]
        simp
    · rw [dif_neg hg]
      show (fAny || (dependentScanPass S ⟨false, false⟩ hs).2.m_fPromoted) = true ↔
        (fAny = true ∨ ∃ o, o ∉ S ∧ o ∈ (dependentScanPass S ⟨false, false⟩ hs).1)
      cases hPc : (dependentScanPass S ⟨false, false⟩ hs).2.m_fPromoted with
      | false =>
        obtain ⟨hS, _⟩ := dependentScanPass_promoted_false hs S ⟨false, false⟩ hPc
        rw [hS]
        constructor
        · intro hf
          exact Or.inl (by simpa using hf)
        · rintro (hf | ⟨o, ho1, ho2⟩)
          · simp [hf]
          · exact absurd ho2 ho1
      | true =>
        obtain ⟨h0, hmem0, hsec0, hin0⟩ :=
          dependentScanPass_new_promotion hs S ⟨false, false⟩ rfl hPc
        constructor
        · intro _
          refine Or.inr ⟨h0.secondary, ?_, hin0⟩
          intro hin
          rw [(IsPromoted_iff S h0.secondary).mpr hin] at hsec0
          cases hsec0
        · intro _
          simp

/-- C1: For a single worker with the monotone promotion oracle (promoting an object
makes `IsPromoted` true for it thereafter and nothing reverts),
`Ref_ScanDependentHandlesForPromotion` terminates (it is a total function: the
fixed-point loop strictly decreases the number of unpromoted secondaries whenever it
repeats), and when it returns every Dependent handle whose primary is non-null and
promoted has a promoted secondary; its return value is true if and only if at least
one secondary promotion was performed during the whole call (exactly when some object
not promoted at entry is promoted at exit). -/
theorem Ref_ScanDependentHandlesForPromotion_spec (S : PromotedSet) (hs : List DepHandle) :
    (∀ h ∈ hs, (h.primary != 0) = true →
      IsPromoted (Ref_ScanDependentHandlesForPromotion S hs).1 h.primary = true →
      IsPromoted (Ref_ScanDependentHandlesForPromotion S hs).1 h.secondary = true) ∧
    ((Ref_ScanDependentHandlesForPromotion S hs).2 = true ↔
      ∃ o, o ∉ S ∧ o ∈ (Ref_ScanDependentHandlesForPromotion S hs).1) := by
  constructor
  · exact fun h hmem hp =>
      dependentScanLoop_post (unpromotedSecondaries S hs) S hs false rfl h hmem hp
  · have hiff := dependentScanLoop_ret (unpromotedSecondaries S hs) S hs false rfl
    simpa [Ref_ScanDependentHandlesForPromotion] using hiff

/-- Witness for C1 at a concrete input: promotion state {1}, a single Dependent handle
(1, 2) with promoted primary 1; the scan promotes the secondary 2 and returns true. -/
theorem Ref_ScanDependentHandlesForPromotion_spec_witness :
    IsPromoted (Ref_ScanDependentHandlesForPromotion [1] [⟨1, 2⟩]).1 2 = true ∧
    (Ref_ScanDependentHandlesForPromotion [1] [⟨1, 2⟩]).2 = true := by
  have hpass : dependentScanPass [1] ⟨false, false⟩ [⟨1, 2⟩] = ([2, 1], ⟨false, true⟩) := by
    decide
  have hrun : Ref_ScanDependentHandlesForPromotion [1] [⟨1, 2⟩] = ([2, 1], true) := by
    rw [Ref_ScanDependentHandlesForPromotion, dependentScanLoop, hpass]
    simp
  constructor
  · exact (Ref_ScanDependentHandlesForPromotion_spec [1] [⟨1, 2⟩]).1 ⟨1, 2⟩ (by simp)
      (by decide) (by rw [hrun]; decide)
  · exact ((Ref_ScanDependentHandlesForPromotion_spec [1] [⟨1, 2⟩]).2).mpr
      ⟨2, by decide, by rw [hrun]; decide⟩

/-- C2: One step of the dependent-promotion callback behaves exactly as the claim's
case analysis.  If the primary slot p is non-null and promoted and the secondary s is
not promoted, s is promoted and `m_fPromoted` (the any-promotion-this-round flag) is
set; otherwise if p is non-null and not promoted, `m_fUnpromotedPrimaries` is set; if
p is promoted and s is already promoted nothing changes; if p is null neither the
promotion state nor the flags change.  The handle slots themselves are never written. -/
theorem PromoteDependentHandle_spec (S : PromotedSet) (ctx : DhContext) (h : DepHandle) :
    ((h.primary != 0) = true → IsPromoted S h.primary = true →
      IsPromoted S h.secondary = false →
      PromoteDependentHandle S ctx h =
        (promoteObj S h.secondary, { ctx with m_fPromoted := true })) ∧
    ((h.primary != 0) = true → IsPromoted S h.primary = false →
      PromoteDependentHandle S ctx h = (S, { ctx with m_fUnpromotedPrimaries := true })) ∧
    ((h.primary != 0) = true → IsPromoted S h.primary = true →
      IsPromoted S h.secondary = true →
      PromoteDependentHandle S ctx h = (S, ctx)) ∧
    ((h.primary != 0) = false → PromoteDependentHandle S ctx h = (S, ctx)) := by
  refine ⟨?_, ?_, ?_, ?_⟩
  · intro h1 h2 h3
    simp [PromoteDependentHandle, h1, h2, h3]
  · intro h1 h2
    simp [PromoteDependentHandle, h1, h2]
  · intro h1 h2 h3
    simp [PromoteDependentHandle, h1, h2, h3]
  · intro h1
    simp [PromoteDependentHandle, h1]

/-- Witness for C2 at a concrete input: promotion state {1}, flags clear, handle
(1, 2): the secondary 2 is promoted and the promotion flag is set. -/
theorem PromoteDependentHandle_spec_witness :
    PromoteDependentHandle [1] ⟨false, false⟩ ⟨1, 2⟩ = ([2, 1], ⟨false, true⟩) := by
  have h := (PromoteDependentHandle_spec [1] ⟨false, false⟩ ⟨1, 2⟩).1
    (by decide) (by decide) (by decide)
  simpa [promoteObj] using h

/-- `ClearDependentHandle` (objecthandle.cpp lines 268-292): if the primary is not
promoted, null both the primary slot and the secondary extra-info word; otherwise
leave the handle untouched. -/
def ClearDependentHandle (S : PromotedSet) (h : DepHandle) : DepHandle :=
  if !(IsPromoted S h.primary) then { primary := 0, secondary := 0 } else h

/-- `Ref_ScanDependentHandlesForClearing` (objecthandle.cpp lines 1361-1392): applies
`ClearDependentHandle` to every Dependent handle (the callback reads no per-scan
state, so the pass is a map over the visited handles). -/
def Ref_ScanDependentHandlesForClearing (S : PromotedSet) (hs : List DepHandle) :
    List DepHandle :=
  hs.map (ClearDependentHandle S)

/-- C3: After the dependent-handle clearing pass, every Dependent handle whose primary
is not promoted has both its primary slot and its secondary extra-info word null, and
a handle whose primary is promoted is left unchanged. -/
theorem Ref_ScanDependentHandlesForClearing_spec (S : PromotedSet) (hs : List DepHandle)
    (i : Nat) (hi : i < hs.length)
    (hi2 : i < (Ref_ScanDependentHandlesForClearing S hs).length) :
    (IsPromoted S (hs.get ⟨i, hi⟩).primary = false →
      (Ref_ScanDependentHandlesForClearing S hs).get ⟨i, hi2⟩ = ⟨0, 0⟩) ∧
    (IsPromoted S (hs.get ⟨i, hi⟩).primary = true →
      (Ref_ScanDependentHandlesForClearing S hs).get ⟨i, hi2⟩ = hs.get ⟨i, hi⟩) := by
  have hmap : (Ref_ScanDependentHandlesForClearing S hs).get ⟨i, hi2⟩ =
      ClearDependentHandle S (hs.get ⟨i, hi⟩) := by
    simp [Ref_ScanDependentHandlesForClearing]
  constructor
  · intro hp
    rw [hmap, ClearDependentHandle, hp]
    simp
  · intro hp
    rw [hmap, ClearDependentHandle, hp]
    simp

/-- Witness for C3 at a concrete input: empty promotion state, one handle (5, 6) whose
primary is unpromoted; after clearing both words are null. -/
theorem Ref_ScanDependentHandlesForClearing_spec_witness :
    (Ref_ScanDependentHandlesForClearing [] [⟨5, 6⟩]).get ⟨0, by decide⟩ = ⟨0, 0⟩ := by
  exact (Ref_ScanDependentHandlesForClearing_spec [] [⟨5, 6⟩] 0 (by decide) (by decide)).1
    (by decide)

/-- `CheckPromoted` (objecthandle.cpp lines 361-381): the weak-clearing callback; if
the referent is not promoted the slot is severed to null, otherwise untouched. -/
def CheckPromoted (S : PromotedSet) (slot : Obj) : Obj :=
  if !(IsPromoted S slot) then 0 else slot

/-- `Ref_CheckAlive` (objecthandle.cpp lines 1638-1681): the short-weak check phase
applies `CheckPromoted` to every visited weak handle slot (the callback reads no
per-scan state, so the phase is a map over the visited slots; `Ref_CheckReachable`
at lines 1211-1256 applies the same callback to its own type list). -/
def Ref_CheckAlive (S : PromotedSet) (slots : List Obj) : List Obj :=
  slots.map (CheckPromoted S)

/-- C4: After a weak-check phase, every visited weak-class handle whose referent is
not promoted reads null, and every visited handle whose referent is promoted still
holds the same reference it held before the phase. -/
theorem Ref_CheckAlive_spec (S : PromotedSet) (slots : List Obj) (i : Nat)
    (hi : i < slots.length) (hi2 : i < (Ref_CheckAlive S slots).length) :
    (IsPromoted S (slots.get ⟨i, hi⟩) = false → (Ref_CheckAlive S slots).get ⟨i, hi2⟩ = 0) ∧
    (IsPromoted S (slots.get ⟨i, hi⟩) = true →
      (Ref_CheckAlive S slots).get ⟨i, hi2⟩ = slots.get ⟨i, hi⟩) := by
  have hmap : (Ref_CheckAlive S slots).get ⟨i, hi2⟩ = CheckPromoted S (slots.get ⟨i, hi⟩) := by
    simp [Ref_CheckAlive]
  constructor
  · intro hp
    rw [hmap, CheckPromoted, hp]
    simp
  · intro hp
    rw [hmap, CheckPromoted, hp]
    simp

/-- Witness for C4 at a concrete input: promotion state {7}, slots [7, 8]; the
unpromoted referent 8 is severed to null. -/
theorem Ref_CheckAlive_spec_witness :
    (Ref_CheckAlive [7] [7, 8]).get ⟨1, by decide⟩ = 0 := by
  exact (Ref_CheckAlive_spec [7] [7, 8] 1 (by decide) (by decide)).1 (by decide)

/-- The closed enumeration of handle types (objecthandle.h type codes in the order of
`s_rgTypeFlags`, objecthandle.cpp lines 567-581). -/
inductive HandleType where
  | HNDTYPE_WEAK_SHORT
  | HNDTYPE_WEAK_LONG
  | HNDTYPE_STRONG
  | HNDTYPE_PINNED
  | HNDTYPE_VARIABLE
  | HNDTYPE_REFCOUNTED
  | HNDTYPE_DEPENDENT
  | HNDTYPE_ASYNCPINNED
  | HNDTYPE_SIZEDREF
  | HNDTYPE_WEAK_NATIVE_COM
  | HNDTYPE_WEAK_INTERIOR_POINTER
  | HNDTYPE_CROSSREFERENCE
deriving DecidableEq

/-- The type array `Ref_CheckAlive` scans with the `CheckPromoted` callback
(objecthandle.cpp lines 1645-1651, all feature toggles enabled as in the spec). -/
def Ref_CheckAliveTypes : List HandleType :=
  [HandleType.HNDTYPE_WEAK_SHORT, HandleType.HNDTYPE_WEAK_NATIVE_COM]

/-- The type array `Ref_CheckReachable` scans with the `CheckPromoted` callback
(objecthandle.cpp lines 1218-1225, all feature toggles enabled as in the spec). -/
def Ref_CheckReachableTypes : List HandleType :=
  [HandleType.HNDTYPE_WEAK_LONG, HandleType.HNDTYPE_REFCOUNTED,
   HandleType.HNDTYPE_WEAK_INTERIOR_POINTER]

/-- All handle types the two weak-check phases scan directly with `CheckPromoted`
(Variable handles additionally reach the callback through the variable dispatcher,
filtered by their dynamic strength bits). -/
def weakCheckPhaseTypes : List HandleType := Ref_CheckAliveTypes ++ Ref_CheckReachableTypes

/-- C5 counterexample: RefCounted handles ARE subject to weak clearing — the type
array of `Ref_CheckReachable` (objecthandle.cpp line 1222) includes
`HNDTYPE_REFCOUNTED`, so `CheckPromoted` is applied to RefCounted handles, refuting
the claim that no type beyond the four weak types receives the callback. -/
theorem Ref_CheckReachable_scans_refcounted :
    HandleType.HNDTYPE_REFCOUNTED ∈ Ref_CheckReachableTypes ∧
    HandleType.HNDTYPE_REFCOUNTED ∈ weakCheckPhaseTypes := by
  decide

/-- C5 amended: the weak-check phases apply `CheckPromoted` to exactly WeakShort and
WeakNativeCom (in `Ref_CheckAlive`) and WeakLong, RefCounted and WeakInteriorPointer
(in `Ref_CheckReachable`) — the four weak types of the claim plus RefCounted. -/
theorem weakCheckPhaseTypes_spec (t : HandleType) :
    t ∈ weakCheckPhaseTypes ↔
      (t = HandleType.HNDTYPE_WEAK_SHORT ∨ t = HandleType.HNDTYPE_WEAK_LONG ∨
       t = HandleType.HNDTYPE_WEAK_NATIVE_COM ∨
       t = HandleType.HNDTYPE_WEAK_INTERIOR_POINTER ∨
       t = HandleType.HNDTYPE_REFCOUNTED) := by
  cases t <;> decide

/-- The types `Ref_TraceNormalRoots` scans with the strong `PromoteObject` callback
(objecthandle.cpp lines 1114-1120): the array is {Strong, SizedRef} and `uTypeCount`
drops SizedRef exactly when `condemned >= maxgen` and no concurrent GC is in
progress. -/
def Ref_TraceNormalRootsStrongTypes (condemned maxgen : Nat)
    (concurrentGCInProgress : Bool) : List HandleType :=
  let types : List HandleType := [HandleType.HNDTYPE_STRONG, HandleType.HNDTYPE_SIZEDREF]
  let uTypeCount : Nat :=
    if decide (condemned ≥ maxgen) && !concurrentGCInProgress then 1 else types.length
  types.take uTypeCount

/-- C6 counterexample: in a non-concurrent major GC (condemned = maxgen = 2) SizedRef
is NOT scanned together with Strong, while in an ephemeral GC (condemned 0 < maxgen 2)
it IS — the opposite of the claim's direction. -/
theorem Ref_TraceNormalRoots_sizedref_direction :
    HandleType.HNDTYPE_SIZEDREF ∉ Ref_TraceNormalRootsStrongTypes 2 2 false ∧
    HandleType.HNDTYPE_SIZEDREF ∈ Ref_TraceNormalRootsStrongTypes 0 2 false := by
  decide

/-- C6 amended: the strong trace promotes Strong handles always, and SizedRef handles
together with them exactly when the GC is ephemeral (condemned < maxgen) or a
concurrent GC is in progress; in a non-concurrent major GC the strong trace scans
Strong only (SizedRef then being handled by the separate sized-ref phase). -/
theorem Ref_TraceNormalRootsStrongTypes_spec (condemned maxgen : Nat)
    (concurrentGCInProgress : Bool) :
    HandleType.HNDTYPE_STRONG ∈
      Ref_TraceNormalRootsStrongTypes condemned maxgen concurrentGCInProgress ∧
    (HandleType.HNDTYPE_SIZEDREF ∈
        Ref_TraceNormalRootsStrongTypes condemned maxgen concurrentGCInProgress ↔
      (condemned < maxgen ∨ concurrentGCInProgress = true)) := by
  cases hcc : concurrentGCInProgress with
  | false =>
    by_cases h1 : condemned ≥ maxgen
    · simp [Ref_TraceNormalRootsStrongTypes, h1]
    · simp [Ref_TraceNormalRootsStrongTypes, h1]
      omega
  | true =>
    simp [Ref_TraceNormalRootsStrongTypes]

/-- The machine word modulus: pointer arithmetic in `UpdateWeakInteriorHandle` is
`uintptr_t` arithmetic, i.e. modulo 2 to the word size (64). -/
def wordModulus : Nat := 2 ^ 64

/-- A WeakInteriorPointer handle as `UpdateWeakInteriorHandle` sees it: the primary
object slot (`*pObjRef`) and the interior pointer stored behind the extra-info word
(`**ppInteriorPtrRef`). -/
structure WeakInteriorHandle where
  primary : Nat
  interior : Nat
deriving DecidableEq

/-- `UpdateWeakInteriorHandle` (objecthandle.cpp lines 150-189): the promote callback
relocates the primary in place (modelled by the host-supplied `relocate` map); if the
new primary is non-null the stored interior pointer is shifted by
`delta = pNewPrimary - pOldPrimary` in word arithmetic; a null new primary leaves the
interior word unchanged. -/
def UpdateWeakInteriorHandle (relocate : Nat → Nat) (h : WeakInteriorHandle) :
    WeakInteriorHandle :=
  if relocate h.primary != 0 then
    { primary := relocate h.primary,
      interior := (h.interior +
        (relocate h.primary + (wordModulus - h.primary % wordModulus)) % wordModulus) %
        wordModulus }
  else
    { primary := relocate h.primary, interior := h.interior }

/-- C7: The relocation update of a WeakInteriorPointer handle preserves the offset
between the stored interior address and the primary object: whenever the updated
primary is non-null, interior_new - primary_new equals interior_old - primary_old
with pointer subtraction taken modulo 2^64; if the updated primary is null, the
stored interior word is left unchanged. -/
theorem UpdateWeakInteriorHandle_spec (relocate : Nat → Nat) (h : WeakInteriorHandle) :
    (relocate h.primary ≠ 0 →
      ((UpdateWeakInteriorHandle relocate h).interior : Int) -
          ((UpdateWeakInteriorHandle relocate h).primary : Int) ≡
        ((h.interior : Int) - (h.primary : Int)) [ZMOD (wordModulus : Int)]) ∧
    (relocate h.primary = 0 →
      (UpdateWeakInteriorHandle relocate h).interior = h.interior) := by
  constructor
  · intro hnz
    have hb : (relocate h.primary != 0) = true := by simpa using hnz
    rw [UpdateWeakInteriorHandle, if_pos hb]
    have hW : wordModulus = 18446744073709551616 := by norm_num [wordModulus]
    rw [hW]
    unfold Int.ModEq
    simp only [Int.emod_emod_of_dvd]
    push_cast
    omega
  · intro h0
    rw [UpdateWeakInteriorHandle]
    simp [h0]

/-- Witness for C7 at a concrete input: relocation shifts every object by 16; the
handle (100, 108) becomes (116, 124) and the offset 8 is preserved modulo 2^64. -/
theorem UpdateWeakInteriorHandle_spec_witness :
    ((UpdateWeakInteriorHandle (fun p => p + 16) ⟨100, 108⟩).interior : Int) -
        ((UpdateWeakInteriorHandle (fun p => p + 16) ⟨100, 108⟩).primary : Int) ≡
      ((108 : Int) - (100 : Int)) [ZMOD (wordModulus : Int)] := by
  exact (UpdateWeakInteriorHandle_spec (fun p => p + 16) ⟨100, 108⟩).1 (by decide)

/-- Modelled from the spec: `HndIsNullOrDestroyedHandle` is a handle-table macro
(objecthandle.h / handletable headers, not among the sources): a slot value is
null-or-destroyed when it is the null reference or the destroyed-handle sentinel;
the sentinel test is abstracted as the `destroyed` oracle. -/
def HndIsNullOrDestroyedHandle (destroyed : Obj → Bool) (o : Obj) : Bool :=
  o == 0 || destroyed o

/-- `PromoteRefCounted` (objecthandle.cpp lines 80-108): loads the slot into the local
`pObj`; if the referent is neither null nor destroyed nor already promoted and the
host callback `RefCountedHandleCallbacks` (the ref-counted liveness oracle `isLive`)
reports it live, the promote callback runs on the address of the local copy.  Returns
(the slot's value after the callback, the promotion state after): the slot itself is
never written, only the local copy's address is handed to the callback. -/
def PromoteRefCounted (destroyed isLive : Obj → Bool) (S : PromotedSet) (slot : Obj) :
    Obj × PromotedSet :=
  if !(HndIsNullOrDestroyedHandle destroyed slot) && !(IsPromoted S slot) then
    if isLive slot then (slot, promoteObj S slot) else (slot, S)
  else
    (slot, S)

/-- The passes `Ref_TraceNormalRoots` issues in order (objecthandle.cpp lines
1106-1178): the strong scan over its type list, the variable-handle strong dispatch,
and — only when the scan context is not concurrent — the ref-counted scan. -/
inductive NormalRootsPass where
  | strongScan (types : List HandleType)
  | variableStrongScan
  | refCountedScan
deriving DecidableEq

/-- `Ref_TraceNormalRoots` (objecthandle.cpp lines 1106-1178) as its sequence of
scan passes, given the condemned and max generations, whether a concurrent GC is
in progress, and the scan context's concurrent flag. -/
def Ref_TraceNormalRootsPasses (condemned maxgen : Nat)
    (concurrentGCInProgress scConcurrent : Bool) : List NormalRootsPass :=
  [NormalRootsPass.strongScan
      (Ref_TraceNormalRootsStrongTypes condemned maxgen concurrentGCInProgress),
   NormalRootsPass.variableStrongScan] ++
  (if scConcurrent then [] else [NormalRootsPass.refCountedScan])

/-- C8: RefCounted handles are never scanned for promotion when the scan context is
concurrent (the ref-counted pass is issued iff `scConcurrent` is false); and when the
pass runs, `PromoteRefCounted` performs a promotion (changes the promotion state) iff
the referent is non-null, not the destroyed sentinel, not already promoted, and the
host liveness callback returns true — and the promotion it performs is exactly the
promotion of the referent. -/
theorem PromoteRefCounted_spec (destroyed isLive : Obj → Bool) (S : PromotedSet)
    (slot : Obj) (condemned maxgen : Nat) (concurrentGCInProgress scConcurrent : Bool) :
    (NormalRootsPass.refCountedScan ∈
        Ref_TraceNormalRootsPasses condemned maxgen concurrentGCInProgress scConcurrent ↔
      scConcurrent = false) ∧
    ((PromoteRefCounted destroyed isLive S slot).2 ≠ S ↔
      (slot ≠ 0 ∧ destroyed slot = false ∧ IsPromoted S slot = false ∧
        isLive slot = true)) ∧
    ((PromoteRefCounted destroyed isLive S slot).2 ≠ S →
      (PromoteRefCounted destroyed isLive S slot).2 = promoteObj S slot) := by
  refine ⟨?_, ?_, ?_⟩
  · cases scConcurrent <;> simp [Ref_TraceNormalRootsPasses]
  · cases hd : HndIsNullOrDestroyedHandle destroyed slot with
    | true =>
      simp only [PromoteRefCounted, hd]
      simp only [HndIsNullOrDestroyedHandle] at hd
      rcases Bool.or_eq_true_iff.mp hd with h0 | h0
      · simp at h0
        simp [h0]
      · simp [h0]
    | false =>
      simp only [HndIsNullOrDestroyedHandle, Bool.or_eq_false_iff] at hd
      obtain ⟨h0, hd2⟩ := hd
      have h0' : slot ≠ 0 := by simpa using h0
      cases hP : IsPromoted S slot with
      | true =>
        simp [PromoteRefCounted, HndIsNullOrDestroyedHandle, h0, hd2, hP]
      | false =>
        cases hL : isLive slot with
        | true =>
          simp [PromoteRefCounted, HndIsNullOrDestroyedHandle, h0, hd2, hP, hL, h0',
            promoteObj]
        | false =>
          simp [PromoteRefCounted, HndIsNullOrDestroyedHandle, h0, hd2, hP, hL]
  · intro hne
    unfold PromoteRefCounted at hne ⊢
    by_cases hc : (!(HndIsNullOrDestroyedHandle destroyed slot) && !(IsPromoted S slot)) = true
    · rw [if_pos hc] at hne ⊢
      by_cases hL : isLive slot = true
      · rw [if_pos hL]
      · rw [if_neg hL] at hne
        exact absurd rfl hne
    · rw [if_neg hc] at hne
      exact absurd rfl hne

/-- Witness for C8: with no object destroyed, every object live, empty promotion state
and referent 5, the only change the pass makes is promoting the referent. -/
theorem PromoteRefCounted_spec_witness :
    (PromoteRefCounted (fun _ => false) (fun _ => true) [] 5).2 = promoteObj [] 5 := by
  exact (PromoteRefCounted_spec (fun _ => false) (fun _ => true) [] 5 0 2 false false).2.2
    (by decide)

/-- C10: The ref-counted promotion scan never writes to the handle slot itself — for
every RefCounted handle the slot's stored pointer after `PromoteRefCounted` equals its
value before, because the promote callback is invoked on the address of a local copy
of the referent (slot relocation happens only later, in `Ref_UpdatePointers`). -/
theorem PromoteRefCounted_slot_unchanged (destroyed isLive : Obj → Bool)
    (S : PromotedSet) (slot : Obj) :
    (PromoteRefCounted destroyed isLive S slot).1 = slot := by
  unfold PromoteRefCounted
  split
  · split <;> rfl
  · rfl

/-- Modelled from the spec: the directory chunk capacity (`INITIAL_CAPACITY`, spec
section 3, "e.g. 64"); the header defining `INITIAL_HANDLE_TABLE_ARRAY_SIZE` is not
among the sources.  Its value plays no role in the claims below. -/
def INITIAL_HANDLE_TABLE_ARRAY_SIZE : Nat := 64

/-- The heap allocations `Ref_Initialize` performs, in program order: the bucket
pointer array, the global `GCHandleStore`, the bucket's per-CPU table array, each
per-CPU handle table, and the dependent-handle context array. -/
inductive HtAlloc where
  | bucketArray
  | handleStore
  | tableArray
  | handleTable (i : Nat)
  | dhContextArray
deriving DecidableEq

/-- The global handle-table state `Ref_Initialize` touches: whether
`g_HandleTableMap.pBuckets` is non-null, `g_HandleTableMap.dwMaxIndex`, whether
`g_gcGlobalHandleStore` is non-null, and whether `g_pDependentHandleContexts` is
non-null.  A pointer field can be true while its allocation is no longer live —
that is a dangling global. -/
structure HandleTableGlobals where
  pBuckets : Bool
  dwMaxIndex : Nat
  handleStore : Bool
  dependentHandleContexts : Bool
deriving DecidableEq

/-- The global state before `Ref_Initialize` runs: everything null. -/
def initialGlobals : HandleTableGlobals :=
  { pBuckets := false, dwMaxIndex := 0, handleStore := false,
    dependentHandleContexts := false }

/-- Index of the first per-CPU handle table whose `HndCreateHandleTable` call fails,
if any (objecthandle.cpp lines 681-688). -/
def firstFailingTable (n : Nat) (ok : HtAlloc → Bool) : Option Nat :=
  (List.range n).find? (fun i => ok (HtAlloc.handleTable i) = false)

/-- `Ref_Initialize` (objecthandle.cpp lines 638-713) with an explicit allocation
oracle `ok` and `n_slots` per-CPU slots.  Returns (the function's return value, the
global handle-table state at return, the heap allocations still live at return).
Following the code: a bucket-array failure returns before anything is allocated; a
store failure deletes the bucket array; a table-array or handle-table failure reaches
`CleanupAndFail`, which deletes the bucket array and the store (leaving the global
store pointer set) while the un-suppressed `HandleTableBucketHolder` destroys the
tables created so far and the table array (their net effect on the live list is
nothing); when all tables are created, `pBuckets[0]` is published, the holder is
suppressed and `g_HandleTableMap` is set, so a dependent-context failure reaches
`CleanupAndFail` with the holder suppressed: the bucket array and store are freed but
the table array and the tables stay live and the published map fields keep pointing
at the freed bucket array. -/
def Ref_Initialize (n_slots : Nat) (ok : HtAlloc → Bool) :
    Bool × HandleTableGlobals × List HtAlloc :=
  if ok HtAlloc.bucketArray = false then
    (false, initialGlobals, [])
  else if ok HtAlloc.handleStore = false then
    (false, initialGlobals, [])
  else if ok HtAlloc.tableArray = false then
    (false, { initialGlobals with handleStore := true }, [])
  else
    match firstFailingTable n_slots ok with
    | some _ =>
      (false, { initialGlobals with handleStore := true }, [])
    | none =>
      if ok HtAlloc.dhContextArray = false then
        (false,
         { pBuckets := true, dwMaxIndex := INITIAL_HANDLE_TABLE_ARRAY_SIZE,
           handleStore := true, dependentHandleContexts := false },
         HtAlloc.tableArray :: (List.range n_slots).map HtAlloc.handleTable)
      else
        (true,
         { pBuckets := true, dwMaxIndex := INITIAL_HANDLE_TABLE_ARRAY_SIZE,
           handleStore := true, dependentHandleContexts := true },
         HtAlloc.bucketArray :: HtAlloc.handleStore :: HtAlloc.tableArray ::
           HtAlloc.dhContextArray :: (List.range n_slots).map HtAlloc.handleTable)

/-- Allocation oracle under which only the dependent-context array allocation fails. -/
def allocFailDhContexts : HtAlloc → Bool
  | HtAlloc.dhContextArray => false
  | _ => true

/-- C9 counterexample: with every allocation succeeding except the dependent-context
array (n_slots = 1), `Ref_Initialize` returns false yet the global state is NOT what
it was before the call (the map fields are published, pointing at the freed bucket
array) and allocations made during the call (the table array and the handle table)
are still live — the claimed full rollback does not happen. -/
theorem Ref_Initialize_dhContext_failure_not_rolled_back :
    (Ref_Initialize 1 allocFailDhContexts).1 = false ∧
    (Ref_Initialize 1 allocFailDhContexts).2.1 ≠ initialGlobals ∧
    (Ref_Initialize 1 allocFailDhContexts).2.2 ≠ [] := by
  decide

/-- C9 amended: `Ref_Initialize` succeeds iff every allocation succeeds; a bucket-array
or store failure returns false with the globals and the heap exactly as before the
call; any failure leaves the bucket array and the store freed and the dependent
contexts unallocated; a failure at the table array or a handle table additionally
releases every structure allocated in the call, but leaves the global store pointer
set (dangling); and a dependent-context failure returns false with the map globals
published (pointing at the freed bucket array) and the table array and all per-CPU
handle tables still live. -/
theorem Ref_Initialize_spec (n_slots : Nat) (ok : HtAlloc → Bool) :
    ((Ref_Initialize n_slots ok).1 = true ↔
      (ok HtAlloc.bucketArray = true ∧ ok HtAlloc.handleStore = true ∧
       ok HtAlloc.tableArray = true ∧ firstFailingTable n_slots ok = none ∧
       ok HtAlloc.dhContextArray = true)) ∧
    (ok HtAlloc.bucketArray = false ∨ ok HtAlloc.handleStore = false →
      Ref_Initialize n_slots ok = (false, initialGlobals, [])) ∧
    (ok HtAlloc.bucketArray = true → ok HtAlloc.handleStore = true →
     (ok HtAlloc.tableArray = false ∨ firstFailingTable n_slots ok ≠ none) →
      Ref_Initialize n_slots ok =
        (false, { initialGlobals with handleStore := true }, [])) ∧
    ((Ref_Initialize n_slots ok).1 = false →
      HtAlloc.bucketArray ∉ (Ref_Initialize n_slots ok).2.2 ∧
      HtAlloc.handleStore ∉ (Ref_Initialize n_slots ok).2.2 ∧
      (Ref_Initialize n_slots ok).2.1.dependentHandleContexts = false) ∧
    ((Ref_Initialize n_slots ok).1 = false → ok HtAlloc.dhContextArray = true →
      (Ref_Initialize n_slots ok).2.2 = [] ∧
      (Ref_Initialize n_slots ok).2.1.pBuckets = false) ∧
    (ok HtAlloc.bucketArray = true → ok HtAlloc.handleStore = true →
     ok HtAlloc.tableArray = true → firstFailingTable n_slots ok = none →
     ok HtAlloc.dhContextArray = false →
      Ref_Initialize n_slots ok =
        (false,
         { pBuckets := true, dwMaxIndex := INITIAL_HANDLE_TABLE_ARRAY_SIZE,
           handleStore := true, dependentHandleContexts := false },
         HtAlloc.tableArray :: (List.range n_slots).map HtAlloc.handleTable)) := by
  cases h1 : ok HtAlloc.bucketArray with
  | false =>
    refine ⟨?_, ?_, ?_, ?_, ?_, ?_⟩ <;> simp [Ref_Initialize, h1, initialGlobals]
  | true =>
    cases h2 : ok HtAlloc.handleStore with
    | false =>
      refine ⟨?_, ?_, ?_, ?_, ?_, ?_⟩ <;> simp [Ref_Initialize, h1, h2, initialGlobals]
    | true =>
      cases h3 : ok HtAlloc.tableArray with
      | false =>
        refine ⟨?_, ?_, ?_, ?_, ?_, ?_⟩ <;>
          simp [Ref_Initialize, h1, h2, h3, initialGlobals]
      | true =>
        cases h4 : firstFailingTable n_slots ok with
        | some i =>
          refine ⟨?_, ?_, ?_, ?_, ?_, ?_⟩ <;>
            simp [Ref_Initialize, h1, h2, h3, h4, initialGlobals]
        | none =>
          cases h5 : ok HtAlloc.dhContextArray with
          | false =>
            refine ⟨?_, ?_, ?_, ?_, ?_, ?_⟩ <;>
              simp [Ref_Initialize, h1, h2, h3, h4, h5]
          | true =>
            refine ⟨?_, ?_, ?_, ?_, ?_, ?_⟩ <;>
              simp [Ref_Initialize, h1, h2, h3, h4, h5]

/-- Witness for C9 at a concrete input: one slot, only the dependent-context array
failing — the exact residual state the amended claim describes. -/
theorem Ref_Initialize_spec_witness :
    Ref_Initialize 1 allocFailDhContexts =
      (false,
       { pBuckets := true, dwMaxIndex := INITIAL_HANDLE_TABLE_ARRAY_SIZE,
         handleStore := true, dependentHandleContexts := false },
       [HtAlloc.tableArray, HtAlloc.handleTable 0]) := by
  have h := (Ref_Initialize_spec 1 allocFailDhContexts).2.2.2.2.2
    (by decide) (by decide) (by decide) (by decide) (by decide)
  simpa using h
